import Mathlib

/-!
Shallow embedding of the `responsive-rsc` library (`src/lib.tsx` and `src/store.ts`)
and proofs about its specification.

Parameter maps (`SearchParams` in the source, a JS object of type
`Record<string, string | string[] | undefined>`) are modelled as association
lists with string keys and `JsVal` values; a JS object never holds two entries
with the same key, which is expressed by the `NodupKeys` predicate where it
matters.  JS truthiness, `?.toString()` and template-string conversion are
modelled explicitly, since the source branches on them.  `URLSearchParams` is
modelled as an ordered list of key/value pairs with the `set`/`append`
semantics of the web API; percent-encoding is the identity on the character
sets used here and is not modelled.
-/

namespace ResponsiveRSC

/-- A JS value of type `string | string[] | undefined`, the value type of the
`SearchParams` record in `src/lib.tsx`. -/
inductive JsVal where
  | undefined : JsVal
  | str : String → JsVal
  | arr : List String → JsVal
deriving DecidableEq, Repr

/-- JS truthiness of a `JsVal`: `undefined` and the empty string are falsy;
every array object (even an empty one) is truthy. -/
def JsVal.truthy : JsVal → Bool
  | .undefined => false
  | .str s => s != ""
  | .arr _ => true

/-- Model of the JS expression `val?.toString()`: `undefined` propagates as
`none`; an array converts by joining its elements with a comma. -/
def JsVal.jsToString : JsVal → Option String
  | .undefined => none
  | .str s => some s
  | .arr l => some (String.intercalate "," l)

/-- Model of the JS template-string conversion of a value as in
the source expression with key and value joined by an equals sign. -/
def JsVal.template : JsVal → String
  | .undefined => "undefined"
  | .str s => s
  | .arr l => String.intercalate "," l

/-- A parameter map (`SearchParams` in `src/lib.tsx`): a string-keyed record,
modelled as an association list in insertion order. -/
abbrev SearchParams := List (String × JsVal)

/-- Model of the JS property read `params[key]`: the value of the first entry
with the given key, or `undefined` when the key is absent. -/
def jsGet (params : SearchParams) (key : String) : JsVal :=
  match params.find? (fun kv => kv.1 == key) with
  | some kv => kv.2
  | none => .undefined

/-- Whether the record has an entry under `key`. -/
def hasKey (params : SearchParams) (key : String) : Bool :=
  params.any (fun kv => kv.1 == key)

/-- Model of `Object.keys(params)` / `for (const key in params)`. -/
def jsKeys (params : SearchParams) : List String :=
  params.map Prod.fst

/-- Well-formedness of the association-list model of a JS object: no duplicate
keys. -/
abbrev NodupKeys (params : SearchParams) : Prop :=
  (params.map Prod.fst).Nodup

/-- Lexicographic comparison of strings as lists of characters: the order used
by the JS `Array.prototype.sort()` default comparator on the keys appearing
here. -/
def charListLe : List Char → List Char → Bool
  | [], _ => true
  | _ :: _, [] => false
  | a :: as, b :: bs => if a = b then charListLe as bs else decide (a < b)

/-- The string order used to model `Object.keys(params).sort()`. -/
def strLe (a b : String) : Prop :=
  charListLe a.data b.data = true

instance : DecidableRel strLe :=
  fun a b => inferInstanceAs (Decidable (charListLe a.data b.data = true))

/-- The pair list held by a `URLSearchParams` object, in order. -/
abbrev URLPairs := List (String × String)

/-- Model of `URLSearchParams.append(key, v)`: adds a pair at the end. -/
def uspAppend (ps : URLPairs) (key v : String) : URLPairs :=
  ps ++ [(key, v)]

/-- Replace the value of the first pair named `key` and drop the remaining
pairs with that name (the in-place part of `URLSearchParams.set`). -/
def uspReplaceFirst : URLPairs → String → String → URLPairs
  | [], _, _ => []
  | kv :: rest, key, v =>
    if kv.1 = key then (key, v) :: rest.filter (fun kv2 => kv2.1 != key)
    else kv :: uspReplaceFirst rest key v

/-- Model of `URLSearchParams.set(key, v)`: replace the first pair named `key`
and drop its duplicates, or append when no pair has that name. -/
def uspSet (ps : URLPairs) (key v : String) : URLPairs :=
  if ps.any (fun kv => kv.1 == key) then uspReplaceFirst ps key v
  else ps ++ [(key, v)]

/-- Model of `URLSearchParams.toString()` (percent-encoding not modelled). -/
def uspToString (ps : URLPairs) : String :=
  String.intercalate "&" (ps.map (fun kv => kv.1 ++ "=" ++ kv.2))

/-- One iteration of the loop in `stringifySearchParams`
(`src/lib.tsx` lines 50-61): a truthy array value appends each element, a
truthy string value is set, falsy values are skipped. -/
def applySearchParam (params : SearchParams) (usp : URLPairs) (key : String) : URLPairs :=
  let val := jsGet params key
  if val.truthy then
    match val with
    | .arr l => l.foldl (fun u v => uspAppend u key v) usp
    | .str s => uspSet usp key s
    | .undefined => usp
  else usp

/-- The pair list built by `stringifySearchParams`: a `URLSearchParams` seeded
from `window.location.search` (here `windowSearch`), then updated with the
entries of `params` in sorted key order. -/
def applyParamsToURL (windowSearch : URLPairs) (params : SearchParams) : URLPairs :=
  (List.insertionSort strLe (jsKeys params)).foldl (applySearchParam params) windowSearch

/-- Model of `stringifySearchParams` (`src/lib.tsx` lines 46-64). -/
def stringifySearchParams (windowSearch : URLPairs) (params : SearchParams) : String :=
  uspToString (applyParamsToURL windowSearch params)

/-- State of a store produced by `createStore` (`src/store.ts`): the held
value and the currently registered listeners.  The JS identity comparison
on values is modelled by equality of the model type `T`. -/
structure StoreState (T : Type) (L : Type) where
  value : T
  listeners : List L
deriving Repr

/-- Model of `store.getValue()`. -/
def getValue {T L : Type} (st : StoreState T L) : T :=
  st.value

/-- Model of `store.setValue(newValue)` (`src/store.ts` lines 27-33): when the
new value equals the current one nothing happens; otherwise the value is
replaced and every current listener is invoked synchronously.  The returned
list is the sequence of listeners that were notified. -/
def setValue {T L : Type} [DecidableEq T] (st : StoreState T L) (newValue : T) :
    StoreState T L × List L :=
  if newValue = st.value then (st, [])
  else ({ st with value := newValue }, st.listeners)

/-- A rendered React node; the constructors distinguish the falsy nodes
(`null`/`undefined`/`false`, and the empty string) from truthy ones, because
`CacheRSC` branches on the truthiness of a cached node. -/
inductive ReactNode where
  | nullNode : ReactNode
  | text : String → ReactNode
  | elem : Nat → ReactNode
deriving DecidableEq, Repr

/-- JS truthiness of a rendered node. -/
def ReactNode.truthy : ReactNode → Bool
  | .nullNode => false
  | .text s => s != ""
  | .elem _ => true

/-- The per-gate fragment cache (`childrenCache : Map<string, React.ReactNode>`). -/
abbrev ChildrenCache := List (String × ReactNode)

/-- Model of `childrenCache.get(cacheKey)`. -/
def cacheGet (cache : ChildrenCache) (key : String) : Option ReactNode :=
  match cache.find? (fun kv => kv.1 == key) with
  | some kv => some kv.2
  | none => none

/-- Model of `childrenCache.set(key, node)`: replace in place when the key is
present, append otherwise. -/
def cacheSet (cache : ChildrenCache) (key : String) (node : ReactNode) : ChildrenCache :=
  if cache.any (fun kv => kv.1 == key) then
    cache.map (fun kv => if kv.1 = key then (key, node) else kv)
  else cache ++ [(key, node)]

/-- Truthiness of the JS expression `childrenCache.get(cacheKey)`: a missing
entry is `undefined`, hence falsy. -/
def cachedTruthy (o : Option ReactNode) : Bool :=
  match o with
  | some n => n.truthy
  | none => false

/-- Outcome of one render of `CacheRSC`: either the component suspends
(throws a promise), or it renders a node, possibly updating its cache. -/
inductive CacheRSCResult where
  | suspended : ChildrenCache → CacheRSCResult
  | rendered : ReactNode → ChildrenCache → CacheRSCResult
deriving DecidableEq, Repr

/-- Model of the `CacheRSC` component body (`src/lib.tsx` lines 66-99).
When pending with suspension enabled it suspends; otherwise a truthy cached
entry is returned verbatim, and else the supplied children are returned,
being stored first when not pending. -/
def CacheRSC (cacheKey : String) (children : ReactNode) (childrenCache : ChildrenCache)
    (suspendOnTransition : Bool) (isPending : Bool) : CacheRSCResult :=
  if isPending && suspendOnTransition then
    .suspended childrenCache
  else
    match cacheGet childrenCache cacheKey with
    | some cachedChildren =>
      if cachedChildren.truthy then .rendered cachedChildren childrenCache
      else if !isPending then .rendered children (cacheSet childrenCache cacheKey children)
      else .rendered children childrenCache
    | none =>
      if !isPending then .rendered children (cacheSet childrenCache cacheKey children)
      else .rendered children childrenCache

/-- Model of `useCacheKey` (`src/lib.tsx` lines 101-112): the declared
parameter names with truthy values, each rendered as a key=value pair and
joined, in the order of the declared list. -/
def useCacheKey (searchParamsUsed : List String) (responsiveParams : SearchParams) : String :=
  String.intercalate "&"
    ((searchParamsUsed.filter (fun key => (jsGet responsiveParams key).truthy)).map
      (fun key => key ++ "=" ++ (jsGet responsiveParams key).template))

/-- The cache key as the specification words it, for comparison with
`useCacheKey`: filter the merged parameters to the declared list, drop unset
entries, sort the remaining entries by key name, and join key=value pairs. -/
def cacheKeySpec (searchParamsUsed : List String) (responsiveParams : SearchParams) : String :=
  String.intercalate "&"
    ((List.insertionSort strLe
        (searchParamsUsed.filter (fun key => (jsGet responsiveParams key).truthy))).map
      (fun key => key ++ "=" ++ (jsGet responsiveParams key).template))

/-- Model of `useIsSearchParamsPending` (`src/lib.tsx` lines 114-122): the
store value must be defined and some declared name must have a truthy value
in it. -/
def useIsSearchParamsPending (searchParamNames : List String)
    (pendingSearchParams : Option SearchParams) : Bool :=
  match pendingSearchParams with
  | none => false
  | some ps => searchParamNames.any (fun key => (jsGet ps key).truthy)

/-- Model of one render of `ResponsiveSuspense` (`src/lib.tsx` lines 223-247)
down to the `CacheRSC` outcome: the cache key and pending flag are computed
from the declared names, and `suspendOnTransition` defaults to `true` when
the prop is omitted. -/
def ResponsiveSuspenseRender (searchParamsUsed : List String)
    (responsiveParams : SearchParams) (pendingSearchParams : Option SearchParams)
    (childrenCache : ChildrenCache) (children : ReactNode)
    (suspendOnTransition : Option Bool) : CacheRSCResult :=
  CacheRSC (useCacheKey searchParamsUsed responsiveParams) children childrenCache
    (match suspendOnTransition with
     | none => true
     | some b => b)
    (useIsSearchParamsPending searchParamsUsed pendingSearchParams)

/-- Model of the JS object spread merging page
parameters with the override as in the source expression building
`responsiveSearchParams`: keys of the base keep their position but take the
override's value when the override has the key (even an `undefined` one);
override-only keys follow in order. -/
def mergeParams (base ov : SearchParams) : SearchParams :=
  base.map (fun kv => (kv.1, if hasKey ov kv.1 then jsGet ov kv.1 else kv.2))
    ++ ov.filter (fun kv => !hasKey base kv.1)

/-- The provider-owned state relevant to the setter: the page-provided
snapshot, the client override, the visited-combination set, the pending
store value, and the current `window.location.search` pairs. -/
structure CoordState where
  pageSearchParams : SearchParams
  searchParamsOverride : Option SearchParams
  visited : List String
  pendingStoreValue : Option SearchParams
  windowSearch : URLPairs
deriving DecidableEq, Repr

/-- Model of the memoised `responsiveSearchParams` (`src/lib.tsx` lines
151-156): the spread of the page snapshot with the override, the spread of
an `undefined` override being a copy of the page snapshot. -/
def responsiveSearchParams (st : CoordState) : SearchParams :=
  match st.searchParamsOverride with
  | none => st.pageSearchParams
  | some ov => mergeParams st.pageSearchParams ov

/-- Model of the pending-delta loop (`src/lib.tsx` lines 179-187): for each
key of the new map, the entry is kept when its `?.toString()` differs from
that of the previously merged value. -/
def computeDelta (newParams resp : SearchParams) : SearchParams :=
  (jsKeys newParams).filterMap (fun key =>
    if (jsGet newParams key).jsToString ≠ (jsGet resp key).jsToString
    then some (key, jsGet newParams key) else none)

/-- The observable outcome of one setter invocation: the new provider state,
the URL pushed via `window.history.pushState` (visited path), the value
published to the pending store, whether a route transition was started, and
the URL passed to `router.replace`. -/
structure SetterEffects where
  state : CoordState
  historyPushedURL : Option String
  storePublished : Option SearchParams
  navigationStarted : Bool
  replacedURL : Option String
deriving DecidableEq, Repr

/-- Model of `setResponsiveSearchParams` (`src/lib.tsx` lines 158-201) on an
already-resolved parameter map: the override is replaced wholesale, the new
map is serialized against the current window query string, and either the
visited "instant replay" path runs (URL update only) or the delta is
published and a route transition starts.  The published delta object is
freshly allocated in the source, so the store's identity check never
suppresses the publish. -/
def setResponsiveSearchParamsResolved (pathname : String) (st : CoordState)
    (newSearchParams : SearchParams) : SetterEffects :=
  let resp := responsiveSearchParams st
  let afterOverride : CoordState := { st with searchParamsOverride := some newSearchParams }
  let searchParamsString := stringifySearchParams st.windowSearch newSearchParams
  if searchParamsString ∈ afterOverride.visited then
    { state := afterOverride
      historyPushedURL := some (pathname ++ "?" ++ searchParamsString)
      storePublished := none
      navigationStarted := false
      replacedURL := none }
  else
    let delta := computeDelta newSearchParams resp
    { state := { afterOverride with
        visited := searchParamsString :: afterOverride.visited
        pendingStoreValue := some delta }
      historyPushedURL := none
      storePublished := some delta
      navigationStarted := true
      replacedURL := some (pathname ++ (if searchParamsString != "" then "?" ++ searchParamsString else "")) }

/-- The argument accepted by the setter: a literal map or a function of the
current merged parameters, as in `React.SetStateAction`. -/
inductive SetStateAction where
  | value : SearchParams → SetStateAction
  | func : (SearchParams → SearchParams) → SetStateAction

/-- Model of the full setter dispatch (`src/lib.tsx` lines 158-163): a
function argument is applied to the current merged parameters first. -/
def setResponsiveSearchParams (pathname : String) (st : CoordState)
    (dispatch : SetStateAction) : SetterEffects :=
  let newSearchParams :=
    match dispatch with
    | .value p => p
    | .func f => f (responsiveSearchParams st)
  setResponsiveSearchParamsResolved pathname st newSearchParams

/-- Model of the effect at `src/lib.tsx` lines 145-149: whenever the route
transition is not pending, the pending store is set back to `undefined`. -/
def pendingClearEffect (L : Type) (isRoutePending : Bool)
    (store : StoreState (Option SearchParams) L) :
    StoreState (Option SearchParams) L × List L :=
  if isRoutePending then (store, [])
  else setValue store none

/-- Settlement of the route transition started by the setter: the host's
transition-completion signal flips `isRoutePending` to `false` without
carrying the outcome of the `router.replace` call, and the effect of
`src/lib.tsx` lines 145-149 then runs.  The `replaceRaised` argument records
whether the replace call raised; it is not consulted anywhere. -/
def transitionSettled (L : Type) (replaceRaised : Bool)
    (store : StoreState (Option SearchParams) L) :
    StoreState (Option SearchParams) L × List L :=
  pendingClearEffect L false store

/-! Helper lemmas about the string order used for key sorting. -/

theorem charListLe_total : ∀ l₁ l₂ : List Char, charListLe l₁ l₂ = true ∨ charListLe l₂ l₁ = true := by
  intro l₁
  induction l₁ with
  | nil => intro l₂; left; rfl
  | cons a as ih =>
    intro l₂
    cases l₂ with
    | nil => right; rfl
    | cons b bs =>
      by_cases hab : a = b
      · subst hab
        rcases ih bs with h | h
        · left; simpa [charListLe] using h
        · right; simpa [charListLe] using h
      · rcases lt_or_gt_of_ne hab with h | h
        · left; simp [charListLe, hab, h]
        · right
          have hba : b ≠ a := fun e => hab e.symm
          simp [charListLe, hba, h]

theorem charListLe_trans :
    ∀ l₁ l₂ l₃ : List Char, charListLe l₁ l₂ = true → charListLe l₂ l₃ = true →
      charListLe l₁ l₃ = true := by
  intro l₁
  induction l₁ with
  | nil => intro l₂ l₃ _ _; rfl
  | cons a as ih =>
    intro l₂ l₃ h₁ h₂
    cases l₂ with
    | nil => simp [charListLe] at h₁
    | cons b bs =>
      cases l₃ with
      | nil => simp [charListLe] at h₂
      | cons c cs =>
        by_cases hab : a = b
        · subst hab
          simp only [charListLe, if_pos rfl] at h₁
          by_cases hac : a = c
          · subst hac
            simp only [charListLe, if_pos rfl] at h₂ ⊢
            exact ih bs cs h₁ h₂
          · simp only [charListLe, if_neg hac] at h₂ ⊢
            exact h₂
        · simp only [charListLe, if_neg hab, decide_eq_true_eq] at h₁
          by_cases hbc : b = c
          · subst hbc
            have hac : a ≠ b := hab
            simp only [charListLe, if_neg hac, decide_eq_true_eq]
            exact h₁
          · simp only [charListLe, if_neg hbc, decide_eq_true_eq] at h₂
            have hlt : a < c := lt_trans h₁ h₂
            simp only [charListLe, if_neg (ne_of_lt hlt), decide_eq_true_eq]
            exact hlt

theorem charListLe_antisymm :
    ∀ l₁ l₂ : List Char, charListLe l₁ l₂ = true → charListLe l₂ l₁ = true → l₁ = l₂ := by
  intro l₁
  induction l₁ with
  | nil =>
    intro l₂ _ h₂
    cases l₂ with
    | nil => rfl
    | cons b bs => simp [charListLe] at h₂
  | cons a as ih =>
    intro l₂ h₁ h₂
    cases l₂ with
    | nil => simp [charListLe] at h₁
    | cons b bs =>
      by_cases hab : a = b
      · subst hab
        simp only [charListLe, if_pos rfl] at h₁ h₂
        rw [ih bs h₁ h₂]
      · exfalso
        have hba : b ≠ a := fun e => hab e.symm
        simp only [charListLe, if_neg hab, decide_eq_true_eq] at h₁
        simp only [charListLe, if_neg hba, decide_eq_true_eq] at h₂
        exact lt_asymm h₁ h₂

theorem insertionSort_strLe_eq_of_perm {l₁ l₂ : List String} (p : List.Perm l₁ l₂) :
    List.insertionSort strLe l₁ = List.insertionSort strLe l₂ := by
  haveI : IsTotal String strLe := ⟨fun a b => charListLe_total a.data b.data⟩
  haveI : IsTrans String strLe := ⟨fun a b c h₁ h₂ => charListLe_trans a.data b.data c.data h₁ h₂⟩
  haveI : IsAntisymm String strLe :=
    ⟨fun a b h₁ h₂ => String.ext (charListLe_antisymm a.data b.data h₁ h₂)⟩
  exact List.eq_of_perm_of_sorted
    ((List.perm_insertionSort strLe l₁).trans (p.trans (List.perm_insertionSort strLe l₂).symm))
    (List.sorted_insertionSort strLe l₁) (List.sorted_insertionSort strLe l₂)

/-! Helper lemmas about record reads on the association-list model. -/

theorem jsGet_cons (k : String) (kv : String × JsVal) (rest : SearchParams) :
    jsGet (kv :: rest) k = if kv.1 == k then kv.2 else jsGet rest k := by
  by_cases h : kv.1 == k <;> simp [jsGet, List.find?, h]

theorem hasKey_cons (k : String) (kv : String × JsVal) (rest : SearchParams) :
    hasKey (kv :: rest) k = ((kv.1 == k) || hasKey rest k) := by
  simp [hasKey]

theorem hasKey_iff_mem_keys {params : SearchParams} {k : String} :
    hasKey params k = true ↔ k ∈ jsKeys params := by
  simp only [hasKey, jsKeys, List.any_eq_true, List.mem_map, beq_iff_eq]

theorem jsGet_eq_undef_of_hasKey_false {params : SearchParams} {k : String}
    (h : hasKey params k = false) : jsGet params k = .undefined := by
  induction params with
  | nil => rfl
  | cons kv rest ih =>
    rw [hasKey_cons] at h
    rcases Bool.or_eq_false_iff.mp h with ⟨h₁, h₂⟩
    rw [jsGet_cons, if_neg (by simp [h₁]), ih h₂]

theorem mem_of_hasKey {params : SearchParams} {k : String} (h : hasKey params k = true) :
    (k, jsGet params k) ∈ params := by
  induction params with
  | nil => simp [hasKey] at h
  | cons kv rest ih =>
    by_cases hk : kv.1 == k
    · have : kv = (k, kv.2) := by
        have : kv.1 = k := by simpa using hk
        exact Prod.ext this rfl
      rw [jsGet_cons, if_pos hk]
      rw [this]
      exact List.mem_cons_self _ _
    · rw [hasKey_cons] at h
      rcases Bool.or_eq_true_iff.mp h with h' | h'
      · exact absurd h' hk
      · rw [jsGet_cons, if_neg hk]
        exact List.mem_cons_of_mem _ (ih h')

theorem jsGet_eq_of_mem {k : String} {v : JsVal} :
    ∀ {params : SearchParams}, NodupKeys params → (k, v) ∈ params → jsGet params k = v := by
  intro params
  induction params with
  | nil => intro _ h; cases h
  | cons kv rest ih =>
    intro nd h
    have nd' := List.nodup_cons.mp nd
    rcases List.mem_cons.mp h with h | h
    · rw [← h, jsGet_cons, if_pos (by simp)]
    · have hk : kv.1 ≠ k := by
        intro e
        exact nd'.1 (e ▸ List.mem_map_of_mem Prod.fst h)
      rw [jsGet_cons, if_neg (by simp [hk]), ih nd'.2 h]

theorem nodupKeys_of_perm {l₁ l₂ : SearchParams} (p : List.Perm l₁ l₂) (nd : NodupKeys l₁) :
    NodupKeys l₂ :=
  (p.map Prod.fst).nodup_iff.mp nd

theorem hasKey_eq_of_perm {l₁ l₂ : SearchParams} (p : List.Perm l₁ l₂) (k : String) :
    hasKey l₁ k = hasKey l₂ k := by
  by_cases h : hasKey l₁ k = true
  · rw [h]
    exact (hasKey_iff_mem_keys.mpr ((p.map Prod.fst).mem_iff.mp (hasKey_iff_mem_keys.mp h))).symm
  · have h₁ : hasKey l₁ k = false := by simpa using h
    have h₂ : hasKey l₂ k = false := by
      by_contra hc
      have : hasKey l₂ k = true := by simpa using hc
      have : k ∈ jsKeys l₁ := (p.map Prod.fst).mem_iff.mpr (hasKey_iff_mem_keys.mp this)
      rw [hasKey_iff_mem_keys.mpr this] at h₁
      cases h₁
    rw [h₁, h₂]

theorem jsGet_eq_of_perm {l₁ l₂ : SearchParams} (nd : NodupKeys l₁) (p : List.Perm l₁ l₂)
    (k : String) : jsGet l₁ k = jsGet l₂ k := by
  by_cases h : hasKey l₁ k = true
  · exact (jsGet_eq_of_mem (nodupKeys_of_perm p nd) (p.mem_iff.mp (mem_of_hasKey h))).symm
  · have h₁ : hasKey l₁ k = false := by simpa using h
    have h₂ : hasKey l₂ k = false := by rw [← hasKey_eq_of_perm p k]; exact h₁
    rw [jsGet_eq_undef_of_hasKey_false h₁, jsGet_eq_undef_of_hasKey_false h₂]

/-! Characterization of the pending-delta computation. -/

theorem mem_computeDelta_iff {newParams resp : SearchParams} (nd : NodupKeys newParams)
    {k : String} {v : JsVal} :
    (k, v) ∈ computeDelta newParams resp ↔
      ((k, v) ∈ newParams ∧ v.jsToString ≠ (jsGet resp k).jsToString) := by
  unfold computeDelta
  rw [List.mem_filterMap]
  constructor
  · rintro ⟨key, hkey, hf⟩
    by_cases hcond : (jsGet newParams key).jsToString ≠ (jsGet resp key).jsToString
    · rw [if_pos hcond] at hf
      have h := Option.some.inj hf
      have hks : key = k := congrArg Prod.fst h
      have hvs : jsGet newParams key = v := congrArg Prod.snd h
      subst hks
      constructor
      · rw [← hvs]
        exact mem_of_hasKey (hasKey_iff_mem_keys.mpr hkey)
      · rw [← hvs]
        exact hcond
    · rw [if_neg hcond] at hf
      cases hf
  · rintro ⟨hmem, hne⟩
    refine ⟨k, List.mem_map_of_mem Prod.fst hmem, ?_⟩
    rw [jsGet_eq_of_mem nd hmem, if_pos hne]

/-! Lookup through the object-spread merge. -/

theorem jsGet_append (l₁ l₂ : SearchParams) (k : String) :
    jsGet (l₁ ++ l₂) k = if hasKey l₁ k = true then jsGet l₁ k else jsGet l₂ k := by
  induction l₁ with
  | nil => simp [hasKey]
  | cons kv rest ih =>
    by_cases h : kv.1 == k
    · rw [List.cons_append, jsGet_cons, if_pos h, jsGet_cons, if_pos h,
        if_pos (by rw [hasKey_cons, h, Bool.true_or])]
    · rw [List.cons_append, jsGet_cons, if_neg h, ih, jsGet_cons, if_neg h,
        hasKey_cons]
      simp only [Bool.or_eq_true, beq_iff_eq]
      by_cases h' : hasKey rest k = true
      · rw [if_pos h', if_pos (Or.inr h')]
      · rw [if_neg h', if_neg (by
          rintro (h'' | h'')
          · exact h (by simp [h''])
          · exact h' h'')]

theorem jsGet_mapMerge (ov : SearchParams) {base : SearchParams} {k : String}
    (h : hasKey base k = true) :
    jsGet (base.map (fun kv => (kv.1, if hasKey ov kv.1 then jsGet ov kv.1 else kv.2))) k
      = if hasKey ov k = true then jsGet ov k else jsGet base k := by
  induction base with
  | nil => simp [hasKey] at h
  | cons kv rest ih =>
    by_cases hk : kv.1 == k
    · have he : kv.1 = k := by simpa using hk
      rw [List.map_cons, jsGet_cons, if_pos (by simpa using hk), jsGet_cons, if_pos hk]
      simp only [he]
    · have hkf : (kv.1 == k) = false := by simpa using hk
      rw [hasKey_cons, hkf, Bool.false_or] at h
      rw [List.map_cons, jsGet_cons, if_neg (by simpa using hk), jsGet_cons, if_neg hk, ih h]

theorem hasKey_mapMerge (ov base : SearchParams) (k : String) :
    hasKey (base.map (fun kv => (kv.1, if hasKey ov kv.1 then jsGet ov kv.1 else kv.2))) k
      = hasKey base k := by
  induction base with
  | nil => rfl
  | cons kv rest ih =>
    rw [List.map_cons, hasKey_cons, hasKey_cons, ih]

theorem jsGet_filter_key (G : String → Bool) {k : String} (hGk : G k = true) :
    ∀ ov : SearchParams, jsGet (ov.filter (fun kv => G kv.1)) k = jsGet ov k := by
  intro ov
  induction ov with
  | nil => rfl
  | cons kv rest ih =>
    by_cases hg : G kv.1 = true
    · rw [List.filter_cons_of_pos (by simpa using hg), jsGet_cons, jsGet_cons, ih]
    · have hk : ¬(kv.1 == k) = true := by
        intro e
        exact hg (by rw [show kv.1 = k by simpa using e]; exact hGk)
      rw [List.filter_cons_of_neg (by simpa using hg), jsGet_cons, if_neg hk, ih]

theorem hasKey_filter_false {G : String × JsVal → Bool} {k : String} {ov : SearchParams}
    (h : hasKey ov k = false) : hasKey (ov.filter G) k = false := by
  induction ov with
  | nil => rfl
  | cons kv rest ih =>
    rw [hasKey_cons] at h
    rcases Bool.or_eq_false_iff.mp h with ⟨h₁, h₂⟩
    by_cases hg : G kv = true
    · rw [List.filter_cons_of_pos hg, hasKey_cons, h₁, Bool.false_or, ih h₂]
    · rw [List.filter_cons_of_neg hg, ih h₂]

theorem jsGet_mergeParams (base ov : SearchParams) (k : String) :
    jsGet (mergeParams base ov) k =
      if hasKey ov k = true then jsGet ov k else jsGet base k := by
  unfold mergeParams
  rw [jsGet_append, hasKey_mapMerge]
  by_cases hb : hasKey base k = true
  · rw [if_pos hb, jsGet_mapMerge ov hb]
  · have hb' : hasKey base k = false := by simpa using hb
    rw [if_neg hb]
    by_cases ho : hasKey ov k = true
    · rw [if_pos ho, jsGet_filter_key (fun x => !hasKey base x) (by simp [hb']) ov]
    · have ho' : hasKey ov k = false := by simpa using ho
      rw [if_neg ho, jsGet_eq_undef_of_hasKey_false hb',
        jsGet_eq_undef_of_hasKey_false (hasKey_filter_false ho')]

/-! Order-independence of the canonical serialization. -/

theorem applySearchParam_congr {l₁ l₂ : SearchParams}
    (h : ∀ k, jsGet l₁ k = jsGet l₂ k) (usp : URLPairs) (key : String) :
    applySearchParam l₁ usp key = applySearchParam l₂ usp key := by
  unfold applySearchParam
  rw [h key]

theorem foldl_applySearchParam_congr {l₁ l₂ : SearchParams}
    (h : ∀ k, jsGet l₁ k = jsGet l₂ k) :
    ∀ (keys : List String) (usp : URLPairs),
      keys.foldl (applySearchParam l₁) usp = keys.foldl (applySearchParam l₂) usp := by
  intro keys
  induction keys with
  | nil => intro usp; rfl
  | cons key rest ih =>
    intro usp
    rw [List.foldl_cons, List.foldl_cons, applySearchParam_congr h, ih]

theorem stringifySearchParams_of_perm (w : URLPairs) {l₁ l₂ : SearchParams}
    (nd : NodupKeys l₁) (p : List.Perm l₁ l₂) :
    stringifySearchParams w l₁ = stringifySearchParams w l₂ := by
  unfold stringifySearchParams applyParamsToURL jsKeys
  rw [insertionSort_strLe_eq_of_perm (p.map Prod.fst),
    foldl_applySearchParam_congr (jsGet_eq_of_perm nd p)]

theorem useCacheKey_congr (used : List String) {l₁ l₂ : SearchParams}
    (h : ∀ k, jsGet l₁ k = jsGet l₂ k) :
    useCacheKey used l₁ = useCacheKey used l₂ := by
  unfold useCacheKey
  have h1 : (fun key => (jsGet l₁ key).truthy) = (fun key => (jsGet l₂ key).truthy) :=
    funext fun k => by rw [h k]
  have h2 : (fun key => key ++ "=" ++ (jsGet l₁ key).template)
      = (fun key => key ++ "=" ++ (jsGet l₂ key).template) :=
    funext fun k => by rw [h k]
  rw [h1, h2]

/-! Retention of window query pairs whose key the map does not touch. -/

theorem mem_uspReplaceFirst {k v key val : String} (hne : k ≠ key) :
    ∀ {ps : URLPairs}, (k, v) ∈ ps → (k, v) ∈ uspReplaceFirst ps key val := by
  intro ps
  induction ps with
  | nil => intro h; cases h
  | cons kv rest ih =>
    intro h
    unfold uspReplaceFirst
    by_cases hk : kv.1 = key
    · rw [if_pos hk]
      rcases List.mem_cons.mp h with h | h
      · exfalso
        apply hne
        rw [← h] at hk
        exact hk
      · exact List.mem_cons_of_mem _ (List.mem_filter.mpr ⟨h, by simpa using hne⟩)
    · rw [if_neg hk]
      rcases List.mem_cons.mp h with h | h
      · rw [h]
        exact List.mem_cons_self _ _
      · exact List.mem_cons_of_mem _ (ih h)

theorem mem_uspSet {k v key val : String} {ps : URLPairs} (hne : k ≠ key)
    (h : (k, v) ∈ ps) : (k, v) ∈ uspSet ps key val := by
  unfold uspSet
  split
  · exact mem_uspReplaceFirst hne h
  · exact List.mem_append_left _ h

theorem mem_foldl_uspAppend {k v key : String} :
    ∀ (l : List String) (usp : URLPairs),
      (k, v) ∈ usp → (k, v) ∈ l.foldl (fun u x => uspAppend u key x) usp := by
  intro l
  induction l with
  | nil => intro usp h; exact h
  | cons x xs ih =>
    intro usp h
    exact ih _ (List.mem_append_left _ h)

theorem mem_applySearchParam {params : SearchParams} {usp : URLPairs} {k v key : String}
    (hne : k ≠ key) (h : (k, v) ∈ usp) : (k, v) ∈ applySearchParam params usp key := by
  cases hv : jsGet params key with
  | undefined => simpa [applySearchParam, hv, JsVal.truthy] using h
  | str s =>
    by_cases hs : s = ""
    · simpa [applySearchParam, hv, JsVal.truthy, hs] using h
    · simp only [applySearchParam, hv, JsVal.truthy]
      rw [if_pos (by simpa using hs)]
      exact mem_uspSet hne h
  | arr l =>
    simp only [applySearchParam, hv, JsVal.truthy, if_true]
    exact mem_foldl_uspAppend _ _ h

theorem mem_foldl_applySearchParam {params : SearchParams} {k v : String} :
    ∀ (keys : List String) (usp : URLPairs), (∀ key ∈ keys, k ≠ key) →
      (k, v) ∈ usp → (k, v) ∈ keys.foldl (applySearchParam params) usp := by
  intro keys
  induction keys with
  | nil => intro usp _ h; exact h
  | cons key rest ih =>
    intro usp hall h
    exact ih _ (fun x hx => hall x (List.mem_cons_of_mem _ hx))
      (mem_applySearchParam (hall key (List.mem_cons_self _ _)) h)

theorem mem_applyParamsToURL {w : URLPairs} {p : SearchParams} {k v : String}
    (hk : hasKey p k = false) (h : (k, v) ∈ w) : (k, v) ∈ applyParamsToURL w p := by
  unfold applyParamsToURL
  apply mem_foldl_applySearchParam _ _ _ h
  intro key hkey he
  subst he
  have hm : k ∈ jsKeys p := (List.perm_insertionSort strLe (jsKeys p)).mem_iff.mp hkey
  rw [hasKey_iff_mem_keys.mpr hm] at hk
  cases hk

/-! The cache key of a sorted declared list agrees with the sorted-spec key. -/

theorem useCacheKey_eq_spec_of_sorted {used : List String} (resp : SearchParams)
    (hs : List.Sorted strLe used) :
    useCacheKey used resp = cacheKeySpec used resp := by
  unfold useCacheKey cacheKeySpec
  rw [List.Sorted.insertionSort_eq (List.Pairwise.filter _ hs)]

/-- A non-suspending render of `CacheRSC` never produces a suspended outcome. -/
theorem cacheRSC_not_suspended {cacheKey : String} {children : ReactNode}
    {cache : ChildrenCache} {sot isPending : Bool} (h : (isPending && sot) = false) :
    ∀ c, CacheRSC cacheKey children cache sot isPending ≠ CacheRSCResult.suspended c := by
  intro c
  unfold CacheRSC
  rw [h]
  simp only [Bool.false_eq_true, if_false]
  split
  · split
    · simp
    · split <;> simp
  · split <;> simp

/-- C1: invoking the setter with a parameter map whose canonical serialized string is
already in the visited set publishes nothing to the pending store, leaves the store
value unchanged, starts no route transition and no replace navigation, does not grow
the visited set, and only pushes the serialized URL onto the history (the override
state being replaced as on every invocation). -/
theorem visitedReplay_only_updates_url (pathname : String) (st : CoordState)
    (M : SearchParams)
    (h : stringifySearchParams st.windowSearch M ∈ st.visited) :
    (setResponsiveSearchParams pathname st (SetStateAction.value M)).storePublished = none ∧
    (setResponsiveSearchParams pathname st (SetStateAction.value M)).state.pendingStoreValue
      = st.pendingStoreValue ∧
    (setResponsiveSearchParams pathname st (SetStateAction.value M)).navigationStarted = false ∧
    (setResponsiveSearchParams pathname st (SetStateAction.value M)).replacedURL = none ∧
    (setResponsiveSearchParams pathname st (SetStateAction.value M)).historyPushedURL
      = some (pathname ++ "?" ++ stringifySearchParams st.windowSearch M) ∧
    (setResponsiveSearchParams pathname st (SetStateAction.value M)).state.visited
      = st.visited ∧
    (setResponsiveSearchParams pathname st (SetStateAction.value M)).state.searchParamsOverride
      = some M := by
  simp only [setResponsiveSearchParams, setResponsiveSearchParamsResolved]
  rw [if_pos (by exact h)]
  exact ⟨rfl, rfl, rfl, rfl, rfl, rfl, rfl⟩

/-- Witness for the C1 theorem at a concrete already-visited state. -/
theorem visitedReplay_only_updates_url_witness :
    (setResponsiveSearchParams "/p" (CoordState.mk [] none [""] none [])
        (SetStateAction.value [])).storePublished = none ∧
    (setResponsiveSearchParams "/p" (CoordState.mk [] none [""] none [])
        (SetStateAction.value [])).state.pendingStoreValue = none ∧
    (setResponsiveSearchParams "/p" (CoordState.mk [] none [""] none [])
        (SetStateAction.value [])).navigationStarted = false ∧
    (setResponsiveSearchParams "/p" (CoordState.mk [] none [""] none [])
        (SetStateAction.value [])).replacedURL = none ∧
    (setResponsiveSearchParams "/p" (CoordState.mk [] none [""] none [])
        (SetStateAction.value [])).historyPushedURL
      = some ("/p" ++ "?" ++ stringifySearchParams [] []) ∧
    (setResponsiveSearchParams "/p" (CoordState.mk [] none [""] none [])
        (SetStateAction.value [])).state.visited = [""] ∧
    (setResponsiveSearchParams "/p" (CoordState.mk [] none [""] none [])
        (SetStateAction.value [])).state.searchParamsOverride = some [] :=
  visitedReplay_only_updates_url "/p" (CoordState.mk [] none [""] none []) [] (by decide)

/-- C5: whenever the route transition settles (the transition-completion signal
reports not pending), the pending store is cleared back to `undefined` regardless of
whether the replace call raised, and if the store held a delta every registered
listener (in particular every suspended gate's resume callback) is notified. -/
theorem pendingCleared_on_transition_settle (L : Type) (replaceRaised : Bool)
    (store : StoreState (Option SearchParams) L) :
    (transitionSettled L replaceRaised store).1.value = none ∧
    (store.value ≠ none → (transitionSettled L replaceRaised store).2 = store.listeners) := by
  by_cases h : (none : Option SearchParams) = store.value
  · constructor
    · simp [transitionSettled, pendingClearEffect, setValue, if_pos h, ← h]
    · intro hne
      exact absurd h.symm hne
  · constructor
    · simp [transitionSettled, pendingClearEffect, setValue, if_neg h]
    · intro _
      simp [transitionSettled, pendingClearEffect, setValue, if_neg h]

/-- Witness for the C5 theorem: a pending delta held by the store is cleared and the
listener notified on settlement, with the replace call having raised. -/
theorem pendingCleared_on_transition_settle_witness :
    (transitionSettled Nat true (StoreState.mk (some [("a", JsVal.str "1")]) [7])).1.value
      = none ∧
    (transitionSettled Nat true (StoreState.mk (some [("a", JsVal.str "1")]) [7])).2 = [7] := by
  have h := pendingCleared_on_transition_settle Nat true
    (StoreState.mk (some [("a", JsVal.str "1")]) [7])
  exact ⟨h.1, h.2 (by simp)⟩

/-- C7: two parameter maps with the same key/value pairs in different insertion
orders produce the same cache key and the same canonical serialization (visited
key), all other inputs held equal. -/
theorem canonical_keys_order_independent (w : URLPairs) (used : List String)
    (l₁ l₂ : SearchParams) (nd : NodupKeys l₁) (p : List.Perm l₁ l₂) :
    useCacheKey used l₁ = useCacheKey used l₂ ∧
    stringifySearchParams w l₁ = stringifySearchParams w l₂ :=
  ⟨useCacheKey_congr used (jsGet_eq_of_perm nd p),
   stringifySearchParams_of_perm w nd p⟩

/-- Witness for the C7 theorem on a two-entry map and its reversal. -/
theorem canonical_keys_order_independent_witness :
    useCacheKey ["a", "b"] [("a", JsVal.str "1"), ("b", JsVal.str "2")]
      = useCacheKey ["a", "b"] [("b", JsVal.str "2"), ("a", JsVal.str "1")] ∧
    stringifySearchParams [] [("a", JsVal.str "1"), ("b", JsVal.str "2")]
      = stringifySearchParams [] [("b", JsVal.str "2"), ("a", JsVal.str "1")] :=
  canonical_keys_order_independent [] ["a", "b"]
    [("a", JsVal.str "1"), ("b", JsVal.str "2")]
    [("b", JsVal.str "2"), ("a", JsVal.str "1")] (by decide) (by decide)

/-- C8: `setValue` with a value identical to the stored one leaves the store
unchanged and notifies nobody; with a different value it replaces the stored value,
keeps the listener set, and notifies every currently registered listener. -/
theorem setValue_identity_check (T L : Type) [DecidableEq T]
    (st : StoreState T L) (v : T) :
    (v = st.value → setValue st v = (st, [])) ∧
    (v ≠ st.value →
      (setValue st v).1.value = v ∧
      (setValue st v).1.listeners = st.listeners ∧
      (setValue st v).2 = st.listeners) := by
  constructor
  · intro h
    simp [setValue, h]
  · intro h
    simp [setValue, h]

/-- Witness for the C8 theorem at a concrete store over natural numbers. -/
theorem setValue_identity_check_witness :
    setValue (StoreState.mk 0 [1, 2]) 0 = (StoreState.mk 0 [1, 2], ([] : List Nat)) ∧
    ((setValue (StoreState.mk 0 [1, 2]) 5).1.value = 5 ∧
      (setValue (StoreState.mk 0 [1, 2]) 5).1.listeners = [1, 2] ∧
      (setValue (StoreState.mk 0 [1, 2]) 5).2 = [1, 2]) :=
  ⟨(setValue_identity_check Nat Nat (StoreState.mk 0 [1, 2]) 0).1 rfl,
   (setValue_identity_check Nat Nat (StoreState.mk 0 [1, 2]) 5).2 (by decide)⟩

/-- C9: every setter invocation replaces the override state wholesale with the
resolved map, so the merged parameters afterwards equal the page snapshot overridden
by exactly that map, and a key absent from the map reads as its page-provided value
(or unset when the page snapshot lacks it). -/
theorem setter_replaces_override_wholesale (pathname : String) (st : CoordState)
    (M : SearchParams) (k : String) (hk : hasKey M k = false) :
    (setResponsiveSearchParamsResolved pathname st M).state.searchParamsOverride = some M ∧
    responsiveSearchParams (setResponsiveSearchParamsResolved pathname st M).state
      = mergeParams st.pageSearchParams M ∧
    jsGet (responsiveSearchParams (setResponsiveSearchParamsResolved pathname st M).state) k
      = jsGet st.pageSearchParams k := by
  have h3 : jsGet (mergeParams st.pageSearchParams M) k = jsGet st.pageSearchParams k := by
    rw [jsGet_mergeParams, hk]
    simp
  simp only [setResponsiveSearchParamsResolved]
  split
  · exact ⟨rfl, rfl, h3⟩
  · exact ⟨rfl, rfl, h3⟩

/-- Witness for the C9 theorem: after setting a map without the key "b", that key
reads as its page-provided value again. -/
theorem setter_replaces_override_wholesale_witness :
    (setResponsiveSearchParamsResolved "/p"
        (CoordState.mk [("b", JsVal.str "3")] (some [("b", JsVal.str "9")]) [] none [])
        [("a", JsVal.str "2")]).state.searchParamsOverride = some [("a", JsVal.str "2")] ∧
    responsiveSearchParams (setResponsiveSearchParamsResolved "/p"
        (CoordState.mk [("b", JsVal.str "3")] (some [("b", JsVal.str "9")]) [] none [])
        [("a", JsVal.str "2")]).state
      = mergeParams [("b", JsVal.str "3")] [("a", JsVal.str "2")] ∧
    jsGet (responsiveSearchParams (setResponsiveSearchParamsResolved "/p"
        (CoordState.mk [("b", JsVal.str "3")] (some [("b", JsVal.str "9")]) [] none [])
        [("a", JsVal.str "2")]).state) "b"
      = jsGet [("b", JsVal.str "3")] "b" :=
  setter_replaces_override_wholesale "/p"
    (CoordState.mk [("b", JsVal.str "3")] (some [("b", JsVal.str "9")]) [] none [])
    [("a", JsVal.str "2")] "b" (by decide)

/-- C10: the canonical serialization is seeded from the current window query string,
so every pair of the current URL whose key is absent from the supplied map is
retained in the produced pair list (of which the serialized string is the
rendering); and the same parameter map can serialize differently under different
window query strings. -/
theorem stringify_seeded_from_window (w : URLPairs) (p : SearchParams) (k v : String)
    (hk : hasKey p k = false) (hmem : (k, v) ∈ w) :
    (k, v) ∈ applyParamsToURL w p ∧
    stringifySearchParams w p = uspToString (applyParamsToURL w p) ∧
    stringifySearchParams [] [] ≠ stringifySearchParams [("x", "1")] [] := by
  refine ⟨mem_applyParamsToURL hk hmem, rfl, ?_⟩
  decide

/-- Witness for the C10 theorem: a window pair with key "z" survives serialization of
a map that does not mention "z". -/
theorem stringify_seeded_from_window_witness :
    ("z", "9") ∈ applyParamsToURL [("z", "9")] [("a", JsVal.str "1")] ∧
    stringifySearchParams [("z", "9")] [("a", JsVal.str "1")]
      = uspToString (applyParamsToURL [("z", "9")] [("a", JsVal.str "1")]) ∧
    stringifySearchParams [] [] ≠ stringifySearchParams [("x", "1")] [] :=
  stringify_seeded_from_window [("z", "9")] [("a", JsVal.str "1")] "z" "9"
    (by decide) (by decide)

/-- C2 counterexample: a pending delta that holds the key "a" with an empty-string
value is defined and shares the key "a" with the declared list ["a"], yet the
pending flag computed by the code is false, refuting the claimed iff. -/
theorem isPending_shared_key_counterexample :
    hasKey [("a", JsVal.str "")] "a" = true ∧
    useIsSearchParamsPending ["a"] (some [("a", JsVal.str "")]) = false := by
  decide

/-- C2 (amended): the gate's pending flag is true iff the pending delta is defined
and at least one declared name has a truthy (set, non-empty) value in it; and with
the default suspension setting the gate render suspends exactly when that flag is
true. -/
theorem isPending_iff_truthy_declared_key (L : List String)
    (pending : Option SearchParams) (resp : SearchParams)
    (cache : ChildrenCache) (children : ReactNode) :
    (useIsSearchParamsPending L pending = true ↔
      ∃ ps, pending = some ps ∧ ∃ k ∈ L, (jsGet ps k).truthy = true) ∧
    (ResponsiveSuspenseRender L resp pending cache children none =
        CacheRSCResult.suspended cache ↔
      useIsSearchParamsPending L pending = true) := by
  constructor
  · cases pending with
    | none => simp [useIsSearchParamsPending]
    | some ps => simp [useIsSearchParamsPending, List.any_eq_true]
  · cases hp : useIsSearchParamsPending L pending with
    | false =>
      constructor
      · intro h
        exfalso
        rw [ResponsiveSuspenseRender, hp] at h
        exact cacheRSC_not_suspended (Bool.false_and _) cache h
      · intro h
        cases h
    | true =>
      rw [ResponsiveSuspenseRender, hp]
      simp [CacheRSC]

/-- C3 counterexample: with a falsy node cached under the current key and is-pending
false, the code ignores the held entry, overwrites it and returns the new subtree,
so a held entry is not always served verbatim. -/
theorem cache_hit_falsy_counterexample :
    cacheGet [("k", ReactNode.nullNode)] "k" = some ReactNode.nullNode ∧
    CacheRSC "k" (ReactNode.text "x") [("k", ReactNode.nullNode)] true false =
      CacheRSCResult.rendered (ReactNode.text "x") [("k", ReactNode.text "x")] := by
  decide

/-- C3 (amended): in a non-suspending render, a truthy cached entry is returned
verbatim with the cache unchanged; when the cache holds no truthy entry and
is-pending is false, the new subtree is stored under the key and returned; when the
cache holds no truthy entry, is-pending is true and suspension is disabled, the new
subtree is returned without touching the cache. -/
theorem cacheRSC_branch_behaviour (cacheKey : String) (children : ReactNode)
    (cache : ChildrenCache) (sot isPending : Bool)
    (hns : (isPending && sot) = false) :
    (∀ cached, cacheGet cache cacheKey = some cached → cached.truthy = true →
      CacheRSC cacheKey children cache sot isPending =
        CacheRSCResult.rendered cached cache) ∧
    (cachedTruthy (cacheGet cache cacheKey) = false → isPending = false →
      CacheRSC cacheKey children cache sot isPending =
        CacheRSCResult.rendered children (cacheSet cache cacheKey children)) ∧
    (cachedTruthy (cacheGet cache cacheKey) = false → isPending = true → sot = false →
      CacheRSC cacheKey children cache sot isPending =
        CacheRSCResult.rendered children cache) := by
  refine ⟨?_, ?_, ?_⟩
  · intro cached hc ht
    simp [CacheRSC, hns, hc, ht]
  · intro hct hpf
    cases hcg : cacheGet cache cacheKey with
    | none => simp [CacheRSC, hns, hcg, hpf]
    | some c =>
      rw [hcg] at hct
      simp only [cachedTruthy] at hct
      simp [CacheRSC, hns, hcg, hct, hpf]
  · intro hct hpt hsf
    cases hcg : cacheGet cache cacheKey with
    | none => simp [CacheRSC, hns, hcg, hpt, hsf]
    | some c =>
      rw [hcg] at hct
      simp only [cachedTruthy] at hct
      simp [CacheRSC, hns, hcg, hct, hpt, hsf]

/-- Witness for the C3 amended theorem: a truthy cached entry wins over differing new
children in a non-pending render. -/
theorem cacheRSC_branch_behaviour_witness :
    CacheRSC "k" (ReactNode.elem 0) [("k", ReactNode.text "v")] true false =
      CacheRSCResult.rendered (ReactNode.text "v") [("k", ReactNode.text "v")] :=
  (cacheRSC_branch_behaviour "k" (ReactNode.elem 0) [("k", ReactNode.text "v")] true false
    (by decide)).1 (ReactNode.text "v") (by decide) (by decide)

/-- C4 counterexample: with merged parameters holding "a" as "1", setting the empty
map changes "a" (it reverts to unset), yet the published delta is the empty map,
because the delta loop ranges only over keys of the new map. -/
theorem delta_absent_key_counterexample :
    (jsGet (responsiveSearchParams
        (CoordState.mk [("a", JsVal.str "1")] none [] none [])) "a").jsToString
      = some "1" ∧
    (jsGet ([] : SearchParams) "a").jsToString = none ∧
    (setResponsiveSearchParamsResolved "/p"
        (CoordState.mk [("a", JsVal.str "1")] none [] none []) []).storePublished
      = some [] := by
  decide

/-- C4 (amended): on the not-previously-visited path the value published to the store
is exactly the computed delta, and an entry (k, v) lies in that delta iff it is an
entry of the new map whose string conversion differs from that of the previously
merged value; a parameter absent from the new map never appears, even when its
merged value changes. -/
theorem delta_published_exactly_changed_new_keys (pathname : String) (st : CoordState)
    (M : SearchParams) (k : String) (v : JsVal) (nd : NodupKeys M)
    (hnew : stringifySearchParams st.windowSearch M ∉ st.visited) :
    (setResponsiveSearchParamsResolved pathname st M).storePublished
      = some (computeDelta M (responsiveSearchParams st)) ∧
    ((k, v) ∈ computeDelta M (responsiveSearchParams st) ↔
      ((k, v) ∈ M ∧ v.jsToString ≠ (jsGet (responsiveSearchParams st) k).jsToString)) := by
  constructor
  · simp only [setResponsiveSearchParamsResolved]
    rw [if_neg (by exact hnew)]
  · exact mem_computeDelta_iff nd

/-- Witness for the C4 amended theorem on a first-time parameter change. -/
theorem delta_published_exactly_changed_new_keys_witness :
    (setResponsiveSearchParamsResolved "/p"
        (CoordState.mk [("a", JsVal.str "1")] none [] none [])
        [("a", JsVal.str "2")]).storePublished
      = some (computeDelta [("a", JsVal.str "2")]
          (responsiveSearchParams (CoordState.mk [("a", JsVal.str "1")] none [] none []))) ∧
    (("a", JsVal.str "2") ∈ computeDelta [("a", JsVal.str "2")]
        (responsiveSearchParams (CoordState.mk [("a", JsVal.str "1")] none [] none [])) ↔
      (("a", JsVal.str "2") ∈ [("a", JsVal.str "2")] ∧
        (JsVal.str "2").jsToString ≠ (jsGet (responsiveSearchParams
          (CoordState.mk [("a", JsVal.str "1")] none [] none [])) "a").jsToString)) :=
  delta_published_exactly_changed_new_keys "/p"
    (CoordState.mk [("a", JsVal.str "1")] none [] none [])
    [("a", JsVal.str "2")] "a" (JsVal.str "2") (by decide) (by decide)

/-- C6 counterexample: with declared list ["b", "a"] the code joins the pairs in the
declared order, not sorted by key name as the claim states. -/
theorem cacheKey_not_sorted_counterexample :
    useCacheKey ["b", "a"] [("a", JsVal.str "1"), ("b", JsVal.str "2")] = "b=2&a=1" ∧
    cacheKeySpec ["b", "a"] [("a", JsVal.str "1"), ("b", JsVal.str "2")] = "a=1&b=2" ∧
    useCacheKey ["b", "a"] [("a", JsVal.str "1"), ("b", JsVal.str "2")] ≠
      cacheKeySpec ["b", "a"] [("a", JsVal.str "1"), ("b", JsVal.str "2")] := by
  decide

/-- C6 (amended): the cache key filters the merged parameters to the declared
dependency list, drops entries with falsy values, and joins key=value pairs in the
order of the declared list; it agrees with the sorted-by-key-name form of the
specification exactly on declared lists that are already sorted. -/
theorem cacheKey_declared_order (used : List String) (resp : SearchParams)
    (hs : List.Sorted strLe used) :
    useCacheKey used resp = String.intercalate "&"
      ((used.filter (fun key => (jsGet resp key).truthy)).map
        (fun key => key ++ "=" ++ (jsGet resp key).template)) ∧
    useCacheKey used resp = cacheKeySpec used resp :=
  ⟨rfl, useCacheKey_eq_spec_of_sorted resp hs⟩

/-- Witness for the C6 amended theorem on a sorted declared list. -/
theorem cacheKey_declared_order_witness :
    useCacheKey ["a", "b"] [("a", JsVal.str "1"), ("b", JsVal.str "2")]
      = String.intercalate "&"
        ((["a", "b"].filter
            (fun key => (jsGet [("a", JsVal.str "1"), ("b", JsVal.str "2")] key).truthy)).map
          (fun key =>
            key ++ "=" ++ (jsGet [("a", JsVal.str "1"), ("b", JsVal.str "2")] key).template)) ∧
    useCacheKey ["a", "b"] [("a", JsVal.str "1"), ("b", JsVal.str "2")]
      = cacheKeySpec ["a", "b"] [("a", JsVal.str "1"), ("b", JsVal.str "2")] :=
  cacheKey_declared_order ["a", "b"] [("a", JsVal.str "1"), ("b", JsVal.str "2")] (by decide)

end ResponsiveRSC
